import Mathlib

/-!
# Verification of Audiobook-Player-GUI

Shallow embedding of the two source files of the repository:

* `SoundObject.py` — a timed-audio-segment player built on a single global
  mixer slot.  The global variable `TARGET_DURATION` (duration of the current
  sound playing, `-1` if no current sound) together with the pygame mixer's
  playing/paused flags and loaded file become an explicit `MixerState`
  record, and each Python function becomes a state transformer on it.
  `pygame.mixer.music.get_pos()` (elapsed playback time in ms) is an input of
  the watchdog.  Resource loading is fallible: it is abstracted by a
  `loadOk : String → Bool` oracle, and a failing load yields `Except.error`
  carrying the diagnostic message (the Python code prints the message and
  raises `SystemExit`, terminating the process).

* `P3.py` — the `Arrow` progress pointer.  Python floats are embedded as
  exact rationals (`ℚ`); Python 3's built-in `round` (round-half-to-even)
  becomes `pyRound`.  The constructor's division
  `(bottom_y - top_y) / num_lines` raises `ZeroDivisionError` when
  `num_lines = 0`, so construction is embedded as an `Option`-returning
  function, `none` on the error branch.
-/

/-! ## Definitions -/

/-- Python 3 `round` on an exact rational: round half to even
(banker's rounding), returning an integer. -/
def pyRound (q : ℚ) : ℤ :=
  if q - ⌊q⌋ < 1/2 then ⌊q⌋
  else if 1/2 < q - ⌊q⌋ then ⌊q⌋ + 1
  else if ⌊q⌋ % 2 = 0 then ⌊q⌋ else ⌊q⌋ + 1

/-- The process-wide playback state of `SoundObject.py`: the global
`TARGET_DURATION` (duration of the current sound playing, `-1` if no current
sound) together with the state of the single `pygame.mixer.music` slot. -/
structure MixerState where
  TARGET_DURATION : Int
  musicPlaying : Bool
  musicPaused : Bool
  loaded : Option String
  deriving DecidableEq, Repr

/-- `stop_when_done()` from `SoundObject.py`: if a sound is current
(`TARGET_DURATION != -1`) and the elapsed playback time `get_pos` exceeds
the target, stop the music and set `TARGET_DURATION` to `-1`. -/
def stop_when_done (get_pos : Int) (st : MixerState) : MixerState :=
  if st.TARGET_DURATION ≠ -1 then
    if get_pos > st.TARGET_DURATION then
      { st with musicPlaying := false, TARGET_DURATION := -1 }
    else st
  else st

/-- A `SoundObject` as constructed in `SoundObject.py.__init__`: a data
directory, a file name, a start time and a duration (times in ms). -/
structure SoundObject where
  data_dir : String
  filename : String
  start_time : Int
  duration : Int
  deriving DecidableEq, Repr

/-- `os.path.join` of two path components (abstracted cross-platform join). -/
def os_path_join (a b : String) : String := a ++ "/" ++ b

/-- The full path a `SoundObject.play()` call tries to load:
`os.path.join(os.path.join(main_dir, self._data_dir), self._filename)`. -/
def SoundObject.fullPath (main_dir : String) (s : SoundObject) : String :=
  os_path_join (os_path_join main_dir s.data_dir) s.filename

/-- `SoundObject.play()`: load the sound file (on failure the source prints
"Cannot load sound file: <path>" and raises `SystemExit`, embedded as
`Except.error` carrying the message), start playback at the start time, and
save the duration in the global `TARGET_DURATION`.  The prior mixer state is
entirely replaced: `pygame.mixer.music` holds at most one loaded file. -/
def SoundObject.play (loadOk : String → Bool) (main_dir : String)
    (s : SoundObject) (_st : MixerState) : Except String MixerState :=
  let filename := s.fullPath main_dir
  if loadOk filename then
    Except.ok { TARGET_DURATION := s.duration,
                musicPlaying := true,
                musicPaused := false,
                loaded := some filename }
  else
    Except.error ("Cannot load sound file: " ++ filename)

/-- `SoundObject.pause()`: pause the player.  The source then assigns
`TARGET_DURATION = self._duration`, but unlike `play()` and
`stop_when_done()` the function has no `global TARGET_DURATION`
declaration, so under Python scoping the assignment binds a function-local
variable that is immediately discarded: the process-wide armed duration is
unchanged. -/
def SoundObject.pause (_s : SoundObject) (st : MixerState) : MixerState :=
  { st with musicPaused := true }

/-- `DATA_DIR` from `P3.py`. -/
def DATA_DIR : String := "data"

/-- `S_FILE_FORWARD` from `P3.py`. -/
def S_FILE_FORWARD : String := "Forward.ogg"

/-- `S_FILE_CH2` from `P3.py`. -/
def S_FILE_CH2 : String := "NormanChapter2Audio.ogg"

/-- `S_FILE_NAVPROMPTS` from `P3.py`. -/
def S_FILE_NAVPROMPTS : String := "NavigationPrompts.ogg"

/-- The image file name loaded in `main()` of `P3.py`. -/
def MainMenu_png : String := "MainMenu.png"

/-- `load_image()` from `P3.py`: join `main_dir`, `DATA_DIR` and the name;
on load failure the source prints "Cannot load image: <path>" and raises
`SystemExit` (embedded as `Except.error` with the message); on success it
returns the (converted) image, embedded as its full path handle. -/
def load_image (loadOk : String → Bool) (main_dir : String)
    (name : String) : Except String String :=
  let fullname := os_path_join (os_path_join main_dir DATA_DIR) name
  if loadOk fullname then
    Except.ok fullname
  else
    Except.error ("Cannot load image: " ++ fullname)

/-- The state of the `Arrow` sprite of `P3.py` (drawing surface omitted:
it is only used by `draw()`, which changes no state). -/
structure Arrow where
  x : ℤ
  y : ℤ
  top_y : ℤ
  bottom_y : ℤ
  num_lines : ℤ
  y_with_decimal : ℚ
  movement_distance : ℚ
  deriving DecidableEq, Repr

/-- `Arrow.__init__` from `P3.py`: stores position and bounds, sets the
fractional accumulator to the initial position, and computes
`movement_distance = (bottom_y - top_y) / num_lines`.  In Python this
division raises `ZeroDivisionError` when `num_lines = 0`, so the embedding
returns `none` on that branch. -/
def Arrow.init (initial_x_pos initial_y_pos top_y bottom_y num_lines : ℤ) :
    Option Arrow :=
  if num_lines = 0 then none
  else some
    { x := initial_x_pos
      y := initial_y_pos
      top_y := top_y
      bottom_y := bottom_y
      num_lines := num_lines
      y_with_decimal := (initial_y_pos : ℚ)
      movement_distance := ((bottom_y : ℚ) - (top_y : ℚ)) / (num_lines : ℚ) }

/-- `Arrow.move_up`: if the rounded position has not hit the top, subtract
the movement distance from the fractional accumulator and re-round. -/
def Arrow.move_up (a : Arrow) : Arrow :=
  if a.top_y < a.y then
    { a with y_with_decimal := a.y_with_decimal - a.movement_distance
             y := pyRound (a.y_with_decimal - a.movement_distance) }
  else a

/-- `Arrow.move_down`: if the rounded position has not hit the bottom, add
the movement distance to the fractional accumulator and re-round. -/
def Arrow.move_down (a : Arrow) : Arrow :=
  if a.y < a.bottom_y then
    { a with y_with_decimal := a.y_with_decimal + a.movement_distance
             y := pyRound (a.y_with_decimal + a.movement_distance) }
  else a

/-- `Arrow.toggle_left`: shift x left by the fixed menu offset 400. -/
def Arrow.toggle_left (a : Arrow) : Arrow :=
  { a with x := a.x - 400 }

/-- `Arrow.toggle_right`: shift x right by the fixed menu offset 400. -/
def Arrow.toggle_right (a : Arrow) : Arrow :=
  { a with x := a.x + 400 }

/-- A vertical move command issued to the arrow. -/
inductive Move where
  | up : Move
  | down : Move
  deriving DecidableEq, Repr

/-- Dispatch one move command to the arrow. -/
def Arrow.applyMove (a : Arrow) : Move → Arrow
  | Move.up => a.move_up
  | Move.down => a.move_down

/-- Execute a sequence of move commands. -/
def runMoves (a : Arrow) : List Move → Arrow
  | [] => a
  | m :: ms => runMoves (a.applyMove m) ms

/-- The sign a move applies to the movement distance: `move_up` subtracts
it, `move_down` adds it. -/
def moveDelta : Move → ℚ
  | Move.up => -1
  | Move.down => 1

/-- Number of `up` commands in a sequence. -/
def countUp : List Move → ℕ
  | [] => 0
  | Move.up :: ms => countUp ms + 1
  | Move.down :: ms => countUp ms

/-- Number of `down` commands in a sequence. -/
def countDown : List Move → ℕ
  | [] => 0
  | Move.up :: ms => countDown ms
  | Move.down :: ms => countDown ms + 1

/-- Whether a move command's guard passes (the move is not clamped). -/
def guardOK (a : Arrow) : Move → Bool
  | Move.up => decide (a.top_y < a.y)
  | Move.down => decide (a.y < a.bottom_y)

/-- Whether every move of a sequence passes its guard when it executes. -/
def noClamp (a : Arrow) : List Move → Bool
  | [] => true
  | m :: ms => guardOK a m && noClamp (a.applyMove m) ms

/-- `forward_sound` from `main()` of `P3.py`. -/
def forward_sound : SoundObject :=
  { data_dir := DATA_DIR, filename := S_FILE_FORWARD
    start_time := 500, duration := 750 }

/-- `backward_sound` from `main()` of `P3.py`. -/
def backward_sound : SoundObject :=
  { data_dir := DATA_DIR, filename := S_FILE_FORWARD
    start_time := 1500, duration := 750 }

/-- `chapter2_sound` from `main()` of `P3.py`. -/
def chapter2_sound : SoundObject :=
  { data_dir := DATA_DIR, filename := S_FILE_CH2
    start_time := 0, duration := 9999999 }

/-- The mixer state before anything is played: no current sound
(`TARGET_DURATION = -1`), nothing loaded. -/
def initialMixerState : MixerState :=
  { TARGET_DURATION := -1, musicPlaying := false
    musicPaused := false, loaded := none }

/-- An arrow with the constructor arguments of `main()` in `P3.py`
(line 252): `Arrow(screen, 10, 506, 887, 887+368, 12)`. -/
def mainArrow : Arrow :=
  { x := 10, y := 506, top_y := 887, bottom_y := 887 + 368, num_lines := 12
    y_with_decimal := 506
    movement_distance := ((887 + 368 : ℚ) - 887) / 12 }

/-- An arrow constructed within its bounds, used to exercise the move
guards on concrete inputs: `Arrow.init 0 5 0 10 1`. -/
def narrowArrow : Arrow :=
  { x := 0, y := 5, top_y := 0, bottom_y := 10, num_lines := 1
    y_with_decimal := 5, movement_distance := ((10 : ℚ) - 0) / 1 }

/-- An arrow starting at its top bound: `Arrow.init 0 0 0 100 10`. -/
def topArrow : Arrow :=
  { x := 0, y := 0, top_y := 0, bottom_y := 100, num_lines := 10
    y_with_decimal := 0, movement_distance := ((100 : ℚ) - 0) / 10 }

/-- An arrow strictly inside its bounds: `Arrow.init 0 50 0 100 10`. -/
def midArrow : Arrow :=
  { x := 0, y := 50, top_y := 0, bottom_y := 100, num_lines := 10
    y_with_decimal := 50, movement_distance := ((100 : ℚ) - 0) / 10 }

/-- An arrow at the top of the page span of `main()`:
`Arrow.init 10 887 887 (887+368) 12`. -/
def pageTopArrow : Arrow :=
  { x := 10, y := 887, top_y := 887, bottom_y := 887 + 368, num_lines := 12
    y_with_decimal := 887
    movement_distance := ((887 + 368 : ℚ) - 887) / 12 }

/-- An arrow whose rounded position sits at its bottom bound:
`Arrow.init 0 100 0 100 10` after reaching the bottom. -/
def bottomArrow : Arrow :=
  { x := 0, y := 100, top_y := 0, bottom_y := 100, num_lines := 10
    y_with_decimal := 100, movement_distance := ((100 : ℚ) - 0) / 10 }

/-- A mixer state with the duration of `forward_sound` armed and playing. -/
def armedState : MixerState :=
  { TARGET_DURATION := 750, musicPlaying := true
    musicPaused := false, loaded := none }

/-- A stand-in for `os.path.split(os.path.abspath(__file__))[0]`, the
directory holding the scripts. -/
def scriptDir : String := "app"

/-! ## Helper lemmas -/

theorem pyRound_intCast (n : ℤ) : pyRound (n : ℚ) = n := by
  simp [pyRound]

theorem pyRound_le_ceil (q : ℚ) : pyRound q ≤ ⌈q⌉ := by
  unfold pyRound
  have hfc : ⌊q⌋ ≤ ⌈q⌉ := Int.floor_le_ceil q
  have hlt : ¬ q - ⌊q⌋ < 1/2 → ⌊q⌋ + 1 ≤ ⌈q⌉ := by
    intro h
    have h2 : (⌊q⌋ : ℚ) < q := by
      have : (1 : ℚ)/2 ≤ q - ⌊q⌋ := le_of_not_lt h
      linarith
    exact Int.lt_ceil.mpr h2
  split
  · exact hfc
  · split
    · exact hlt (by assumption)
    · split
      · exact hfc
      · exact hlt (by assumption)

theorem pyRound_le_of_le {q : ℚ} {B : ℤ} (h : q ≤ (B : ℚ)) : pyRound q ≤ B :=
  le_trans (pyRound_le_ceil q) (Int.ceil_le.mpr h)

theorem play_ignores_prior_state (loadOk : String → Bool) (main_dir : String)
    (s : SoundObject) (st st' : MixerState) :
    s.play loadOk main_dir st = s.play loadOk main_dir st' := by
  simp [SoundObject.play]

/-! ## Claims -/

/-- **C1.** For every armed duration `d ≠ -1` (the "none" sentinel) and
every device elapsed-playback time `t`: a `tick()` (`stop_when_done`) call
with `t ≤ d` changes nothing; with `t > d` it stops playback and sets the
armed duration to the sentinel; and once the armed duration is `-1`, every
subsequent `tick()` is a no-op. -/
theorem stop_when_done_spec (st : MixerState) (t : Int) :
    (st.TARGET_DURATION ≠ -1 → t ≤ st.TARGET_DURATION →
      stop_when_done t st = st) ∧
    (st.TARGET_DURATION ≠ -1 → st.TARGET_DURATION < t →
      stop_when_done t st =
        { st with musicPlaying := false, TARGET_DURATION := -1 }) ∧
    (st.TARGET_DURATION = -1 → stop_when_done t st = st) := by
  refine ⟨?_, ?_, ?_⟩
  · intro hd hle
    simp [stop_when_done, hd, not_lt.mpr hle]
  · intro hd hlt
    simp [stop_when_done, hd, hlt]
  · intro hd
    simp [stop_when_done, hd]

theorem stop_when_done_spec_witness :
    (armedState.TARGET_DURATION ≠ -1 ∧
      stop_when_done 700 armedState = armedState) ∧
    stop_when_done 800 armedState =
      { armedState with musicPlaying := false, TARGET_DURATION := -1 } ∧
    stop_when_done 800 initialMixerState = initialMixerState := by
  refine ⟨⟨by decide, ?_⟩, ?_, ?_⟩
  · exact (stop_when_done_spec armedState 700).1 (by decide) (by decide)
  · exact (stop_when_done_spec armedState 800).2.1 (by decide) (by decide)
  · exact (stop_when_done_spec initialMixerState 800).2.2 rfl

/-- **C2.** After `play(A)` followed by `play(B)` (both loads succeeding),
the process-wide armed duration equals `B.duration` — the second play
supersedes the first; after any successful play the armed duration equals
that segment's duration, and the loaded file reflects the last segment. -/
theorem play_supersedes (loadOk : String → Bool) (main_dir : String)
    (A B : SoundObject) (st st₁ st₂ : MixerState)
    (h₁ : A.play loadOk main_dir st = Except.ok st₁)
    (h₂ : B.play loadOk main_dir st₁ = Except.ok st₂) :
    st₁.TARGET_DURATION = A.duration ∧
    st₂.TARGET_DURATION = B.duration ∧
    st₂.loaded = some (B.fullPath main_dir) := by
  simp only [SoundObject.play] at h₁ h₂
  split at h₁
  · split at h₂
    · injection h₁ with h₁
      injection h₂ with h₂
      subst h₁
      subst h₂
      exact ⟨rfl, rfl, rfl⟩
    · exact absurd h₂ (by simp)
  · exact absurd h₁ (by simp)

theorem play_supersedes_witness :
    forward_sound.play (fun _ => true) scriptDir initialMixerState =
      Except.ok { TARGET_DURATION := 750, musicPlaying := true
                  musicPaused := false
                  loaded := some (forward_sound.fullPath scriptDir) } ∧
    chapter2_sound.play (fun _ => true) scriptDir
        { TARGET_DURATION := 750, musicPlaying := true
          musicPaused := false
          loaded := some (forward_sound.fullPath scriptDir) } =
      Except.ok { TARGET_DURATION := 9999999, musicPlaying := true
                  musicPaused := false
                  loaded := some (chapter2_sound.fullPath scriptDir) } ∧
    (9999999 : Int) = chapter2_sound.duration := by
  refine ⟨rfl, rfl, ?_⟩
  exact (play_supersedes (fun _ => true) scriptDir forward_sound
    chapter2_sound initialMixerState _ _ rfl rfl).2.1.symm

/-- **C7.** For every `SoundObject` `s` and every prior playback state,
`s.pause()` pauses playback and does not change the process-wide armed
duration: the assignment `TARGET_DURATION = self._duration` in the source
lacks a `global` declaration, so it binds a discarded local and the global
value — whatever it was — is left as is.  No other field changes either. -/
theorem pause_preserves_armed (s : SoundObject) (st : MixerState) :
    (s.pause st).musicPaused = true ∧
    (s.pause st).TARGET_DURATION = st.TARGET_DURATION ∧
    (s.pause st).musicPlaying = st.musicPlaying ∧
    (s.pause st).loaded = st.loaded :=
  ⟨rfl, rfl, rfl, rfl⟩

/-- **C8.** If loading the named audio or image resource fails, the call
terminates the program with a diagnostic message naming the failing file
(embedded: returns `Except.error` with that message) — no retry, recovery
or degraded result. -/
theorem load_failure_fatal (loadOk : String → Bool) (main_dir name : String)
    (s : SoundObject) (st : MixerState)
    (ha : loadOk (s.fullPath main_dir) = false)
    (hi : loadOk (os_path_join (os_path_join main_dir DATA_DIR) name) = false) :
    s.play loadOk main_dir st =
      Except.error ("Cannot load sound file: " ++ s.fullPath main_dir) ∧
    load_image loadOk main_dir name =
      Except.error ("Cannot load image: " ++
        os_path_join (os_path_join main_dir DATA_DIR) name) := by
  constructor
  · simp [SoundObject.play, ha]
  · simp [load_image, hi]

theorem load_failure_fatal_witness :
    (fun _ : String => false) (forward_sound.fullPath scriptDir) = false ∧
    forward_sound.play (fun _ => false) scriptDir initialMixerState =
      Except.error ("Cannot load sound file: " ++
        forward_sound.fullPath scriptDir) ∧
    load_image (fun _ => false) scriptDir MainMenu_png =
      Except.error ("Cannot load image: " ++
        os_path_join (os_path_join scriptDir DATA_DIR) MainMenu_png) :=
  ⟨rfl,
   (load_failure_fatal (fun _ => false) scriptDir MainMenu_png forward_sound
      initialMixerState rfl rfl).1,
   (load_failure_fatal (fun _ => false) scriptDir MainMenu_png forward_sound
      initialMixerState rfl rfl).2⟩

/-- **C3 (counterexample).** The claim says `topY ≤ y ≤ bottomY` holds after
construction and after every move.  But `main()` itself constructs the arrow
as `Arrow(screen, 10, 506, 887, 887+368, 12)`, whose rounded position 506 is
above `topY = 887`; and even from a within-bounds start (`Arrow.init 0 5 0
10 1`), one `move_down()` overshoots the bottom bound (5 + 10 = 15 > 10),
because the guard checks the pre-move rounded value only. -/
theorem arrow_bounds_counterexample :
    (Arrow.init 10 506 887 (887 + 368) 12 = some mainArrow ∧
      mainArrow.y < mainArrow.top_y) ∧
    (Arrow.init 0 5 0 10 1 = some narrowArrow ∧
      narrowArrow.top_y ≤ narrowArrow.y ∧
      narrowArrow.y ≤ narrowArrow.bottom_y ∧
      narrowArrow.bottom_y < narrowArrow.move_down.y) := by
  refine ⟨⟨?_, by decide⟩, ?_, by decide, by decide, ?_⟩
  · norm_num [Arrow.init, mainArrow]
  · norm_num [Arrow.init, narrowArrow]
  · norm_num [narrowArrow, Arrow.move_down, pyRound]

/-- **C3 (amended).** The bounds are enforced only as move guards on the
pre-move rounded position: `move_up()` is a no-op whenever the rounded
position is at or above `topY`, and `move_down()` is a no-op whenever it is
at or below `bottomY`, so neither move fires from at-or-past its bound.  The
rounded position itself is not confined to `[topY, bottomY]`: the program
constructs the arrow above `topY`, and a single move can overshoot a bound
by up to the step size. -/
theorem move_guard_noop (a : Arrow) :
    (a.y ≤ a.top_y → a.move_up = a) ∧
    (a.bottom_y ≤ a.y → a.move_down = a) := by
  constructor
  · intro h
    simp [Arrow.move_up, not_lt.mpr h]
  · intro h
    simp [Arrow.move_down, not_lt.mpr h]

theorem move_guard_noop_witness :
    (topArrow.y ≤ topArrow.top_y ∧ topArrow.move_up = topArrow) ∧
    (bottomArrow.bottom_y ≤ bottomArrow.y ∧
      bottomArrow.move_down = bottomArrow) :=
  ⟨⟨by decide, (move_guard_noop topArrow).1 (by decide)⟩,
   ⟨by decide, (move_guard_noop bottomArrow).2 (by decide)⟩⟩

/-- **C6.** For every arrow whose rounded position equals `topY`,
`move_up()` is a no-op: the whole state is unchanged. -/
theorem move_up_at_top_noop (a : Arrow) (h : a.y = a.top_y) :
    a.move_up = a := by
  simp [Arrow.move_up, h]

theorem move_up_at_top_noop_witness :
    topArrow.y = topArrow.top_y ∧ topArrow.move_up = topArrow :=
  ⟨rfl, move_up_at_top_noop topArrow rfl⟩

/-- **C9.** The rounded position is always the Python-rounding of the
fractional accumulator: construction from an integer initial position
establishes `y = pyRound y_with_decimal`, and each of `move_up`,
`move_down`, `toggle_left`, `toggle_right` preserves it. -/
theorem round_invariant (x y0 T B L : ℤ) (a b : Arrow)
    (ha : Arrow.init x y0 T B L = some a)
    (hb : b.y = pyRound b.y_with_decimal) :
    a.y = pyRound a.y_with_decimal ∧
    b.move_up.y = pyRound b.move_up.y_with_decimal ∧
    b.move_down.y = pyRound b.move_down.y_with_decimal ∧
    b.toggle_left.y = pyRound b.toggle_left.y_with_decimal ∧
    b.toggle_right.y = pyRound b.toggle_right.y_with_decimal := by
  refine ⟨?_, ?_, ?_, ?_, ?_⟩
  · unfold Arrow.init at ha
    split at ha
    · exact absurd ha (by simp)
    · injection ha with ha
      subst ha
      exact (pyRound_intCast y0).symm
  · unfold Arrow.move_up
    split
    · rfl
    · exact hb
  · unfold Arrow.move_down
    split
    · rfl
    · exact hb
  · exact hb
  · exact hb

theorem round_invariant_witness :
    Arrow.init 0 50 0 100 10 = some midArrow ∧
    midArrow.y = pyRound midArrow.y_with_decimal ∧
    (midArrow.y = pyRound midArrow.y_with_decimal ∧
     midArrow.move_up.y = pyRound midArrow.move_up.y_with_decimal ∧
     midArrow.move_down.y = pyRound midArrow.move_down.y_with_decimal ∧
     midArrow.toggle_left.y = pyRound midArrow.toggle_left.y_with_decimal ∧
     midArrow.toggle_right.y = pyRound midArrow.toggle_right.y_with_decimal) :=
  ⟨by norm_num [Arrow.init, midArrow], by norm_num [midArrow, pyRound],
   round_invariant 0 50 0 100 10 midArrow midArrow
     (by norm_num [Arrow.init, midArrow]) (by norm_num [midArrow, pyRound])⟩

/-- **C10.** Constructing an arrow divides by `num_lines`: with
`num_lines = 0` the Python constructor raises `ZeroDivisionError` (the
embedding returns `none`), and under the precondition `num_lines ≠ 0` the
construction succeeds with `movement_distance = (bottom_y - top_y) /
num_lines`. -/
theorem init_zero_lines (x y T B L : ℤ) (h : L ≠ 0) :
    Arrow.init x y T B 0 = none ∧
    Arrow.init x y T B L =
      some { x := x, y := y, top_y := T, bottom_y := B, num_lines := L
             y_with_decimal := (y : ℚ)
             movement_distance := ((B : ℚ) - (T : ℚ)) / (L : ℚ) } := by
  constructor
  · simp [Arrow.init]
  · simp [Arrow.init, h]

theorem init_zero_lines_witness :
    (1 : ℤ) ≠ 0 ∧
    (Arrow.init 0 5 0 10 0 = none ∧
     Arrow.init 0 5 0 10 1 =
       some { x := (0 : ℤ), y := (5 : ℤ), top_y := (0 : ℤ)
              bottom_y := (10 : ℤ), num_lines := (1 : ℤ)
              y_with_decimal := (((5 : ℤ)) : ℚ)
              movement_distance :=
                ((((10 : ℤ)) : ℚ) - (((0 : ℤ)) : ℚ)) / (((1 : ℤ)) : ℚ) }) :=
  ⟨by decide, init_zero_lines 0 5 0 10 1 (by decide)⟩

theorem move_down_inv_step (T B L : ℤ) (step : ℚ) (k : ℕ) (a : Arrow)
    (hTB : T ≤ B) (hL : 0 < L)
    (hstep : step = ((B : ℚ) - (T : ℚ)) / (L : ℚ))
    (hk : (k : ℤ) < L)
    (htop : a.top_y = T) (hbot : a.bottom_y = B)
    (hd : a.movement_distance = step)
    (hinv : a.y = B ∨
      (a.y_with_decimal = (T : ℚ) + (k : ℚ) * step ∧
       a.y = pyRound a.y_with_decimal)) :
    a.move_down.top_y = T ∧ a.move_down.bottom_y = B ∧
    a.move_down.movement_distance = step ∧
    (a.move_down.y = B ∨
      (a.move_down.y_with_decimal = (T : ℚ) + ((k : ℚ) + 1) * step ∧
       a.move_down.y = pyRound a.move_down.y_with_decimal)) := by
  have hLpos : (0 : ℚ) < (L : ℚ) := by exact_mod_cast hL
  have hL0 : (L : ℚ) ≠ 0 := ne_of_gt hLpos
  have hBT : (T : ℚ) ≤ (B : ℚ) := by exact_mod_cast hTB
  have hstep0 : 0 ≤ step := by
    rw [hstep]
    exact div_nonneg (by linarith) (le_of_lt hLpos)
  have hLs : (L : ℚ) * step = (B : ℚ) - (T : ℚ) := by
    rw [hstep]; field_simp
  by_cases hyB : a.y = B
  · have hng : ¬ (a.y < a.bottom_y) := by
      rw [hbot, hyB]; exact lt_irrefl B
    unfold Arrow.move_down
    rw [if_neg hng]
    exact ⟨htop, hbot, hd, Or.inl hyB⟩
  · rcases hinv with h | ⟨hyd, hround⟩
    · exact absurd h hyB
    · have hk1 : (k : ℚ) ≤ (L : ℚ) - 1 := by
        have hk' : (k : ℤ) ≤ L - 1 := by omega
        exact_mod_cast hk'
      have hydle : a.y_with_decimal ≤ (B : ℚ) := by
        rw [hyd]
        have h1 : (k : ℚ) * step ≤ ((L : ℚ) - 1) * step :=
          mul_le_mul_of_nonneg_right hk1 hstep0
        have h2 : ((L : ℚ) - 1) * step = (L : ℚ) * step - step := by ring
        linarith
      have hyle : a.y ≤ B := by
        rw [hround]; exact pyRound_le_of_le hydle
      have hylt : a.y < a.bottom_y := by
        rw [hbot]; exact lt_of_le_of_ne hyle hyB
      unfold Arrow.move_down
      rw [if_pos hylt]
      refine ⟨htop, hbot, hd, Or.inr ⟨?_, rfl⟩⟩
      show a.y_with_decimal + a.movement_distance = (T : ℚ) + ((k : ℚ) + 1) * step
      rw [hyd, hd]; ring

theorem move_down_iter_inv (T B L : ℤ) (step : ℚ) (a : Arrow)
    (hTB : T ≤ B) (hL : 0 < L)
    (hstep : step = ((B : ℚ) - (T : ℚ)) / (L : ℚ))
    (htop : a.top_y = T) (hbot : a.bottom_y = B)
    (hd : a.movement_distance = step)
    (hy : a.y = T) (hyd : a.y_with_decimal = (T : ℚ)) :
    ∀ k : ℕ, (k : ℤ) ≤ L →
      (Arrow.move_down^[k] a).top_y = T ∧
      (Arrow.move_down^[k] a).bottom_y = B ∧
      (Arrow.move_down^[k] a).movement_distance = step ∧
      ((Arrow.move_down^[k] a).y = B ∨
        ((Arrow.move_down^[k] a).y_with_decimal = (T : ℚ) + (k : ℚ) * step ∧
         (Arrow.move_down^[k] a).y =
           pyRound (Arrow.move_down^[k] a).y_with_decimal)) := by
  intro k
  induction k with
  | zero =>
    intro _
    refine ⟨htop, hbot, hd, Or.inr ⟨?_, ?_⟩⟩
    · simp [hyd]
    · show a.y = pyRound a.y_with_decimal
      rw [hy, hyd]
      exact (pyRound_intCast T).symm
  | succ k ih =>
    intro hk1
    have hk : (k : ℤ) < L := by push_cast at hk1; omega
    obtain ⟨i1, i2, i3, i4⟩ := ih (le_of_lt hk)
    rw [Function.iterate_succ_apply']
    obtain ⟨j1, j2, j3, j4⟩ := move_down_inv_step T B L step k
      (Arrow.move_down^[k] a) hTB hL hstep hk i1 i2 i3 i4
    refine ⟨j1, j2, j3, ?_⟩
    rcases j4 with j | ⟨ja, jb⟩
    · exact Or.inl j
    · refine Or.inr ⟨?_, jb⟩
      rw [ja]; push_cast; ring

/-- **C4.** For every arrow whose rounded and fractional position start at
`topY`, with `stepSize = (bottomY - topY) / lineCount`, `lineCount > 0` and
`topY ≤ bottomY`: after exactly `lineCount` `move_down()` calls the rounded
position equals `bottomY` exactly — no overshoot accumulates past the
bound. -/
theorem move_down_reaches_bottom (a : Arrow)
    (hy : a.y = a.top_y)
    (hyd : a.y_with_decimal = (a.top_y : ℚ))
    (hstep : a.movement_distance =
      ((a.bottom_y : ℚ) - (a.top_y : ℚ)) / (a.num_lines : ℚ))
    (hL : 0 < a.num_lines) (hTB : a.top_y ≤ a.bottom_y) :
    (Arrow.move_down^[a.num_lines.toNat] a).y = a.bottom_y := by
  have htoNat : ((a.num_lines.toNat : ℕ) : ℤ) = a.num_lines :=
    Int.toNat_of_nonneg hL.le
  obtain ⟨_, _, _, h4⟩ := move_down_iter_inv a.top_y a.bottom_y a.num_lines
    a.movement_distance a hTB hL hstep rfl rfl rfl hy hyd
    a.num_lines.toNat (le_of_eq htoNat)
  rcases h4 with h | ⟨ha, hb⟩
  · exact h
  · have hL0 : (a.num_lines : ℚ) ≠ 0 :=
      Int.cast_ne_zero.mpr (ne_of_gt hL)
    have hQ : ((a.num_lines.toNat : ℕ) : ℚ) = (a.num_lines : ℚ) := by
      exact_mod_cast htoNat
    have hyd2 : (Arrow.move_down^[a.num_lines.toNat] a).y_with_decimal =
        (a.bottom_y : ℚ) := by
      rw [ha, hQ, hstep]
      field_simp
    rw [hb, hyd2, pyRound_intCast]

theorem move_down_reaches_bottom_witness :
    pageTopArrow.y = pageTopArrow.top_y ∧
    0 < pageTopArrow.num_lines ∧
    pageTopArrow.top_y ≤ pageTopArrow.bottom_y ∧
    (Arrow.move_down^[pageTopArrow.num_lines.toNat] pageTopArrow).y =
      pageTopArrow.bottom_y :=
  ⟨rfl, by decide, by decide,
   move_down_reaches_bottom pageTopArrow rfl (by norm_num [pageTopArrow])
     (by norm_num [pageTopArrow]) (by decide) (by decide)⟩

theorem applyMove_spec (a : Arrow) (m : Move) (h : guardOK a m = true) :
    (a.applyMove m).y_with_decimal =
      a.y_with_decimal + moveDelta m * a.movement_distance ∧
    (a.applyMove m).y = pyRound (a.applyMove m).y_with_decimal ∧
    (a.applyMove m).movement_distance = a.movement_distance := by
  cases m with
  | up =>
    have hg : a.top_y < a.y := by simpa [guardOK] using h
    unfold Arrow.applyMove Arrow.move_up
    rw [if_pos hg]
    refine ⟨?_, rfl, rfl⟩
    show a.y_with_decimal - a.movement_distance = _
    simp [moveDelta]
    ring
  | down =>
    have hg : a.y < a.bottom_y := by simpa [guardOK] using h
    unfold Arrow.applyMove Arrow.move_down
    rw [if_pos hg]
    refine ⟨?_, rfl, rfl⟩
    show a.y_with_decimal + a.movement_distance = _
    simp [moveDelta]

theorem runMoves_noClamp (ms : List Move) (a : Arrow)
    (hinv : a.y = pyRound a.y_with_decimal)
    (hg : noClamp a ms = true) :
    (runMoves a ms).y_with_decimal =
      a.y_with_decimal +
        ((countDown ms : ℚ) - (countUp ms : ℚ)) * a.movement_distance ∧
    (runMoves a ms).y = pyRound (runMoves a ms).y_with_decimal := by
  induction ms generalizing a with
  | nil =>
    refine ⟨?_, ?_⟩
    · simp [runMoves, countUp, countDown]
    · simpa [runMoves] using hinv
  | cons m ms ih =>
    rw [noClamp, Bool.and_eq_true] at hg
    obtain ⟨hgm, hgrest⟩ := hg
    obtain ⟨s1, s2, s3⟩ := applyMove_spec a m hgm
    obtain ⟨e1, e2⟩ := ih (a.applyMove m) s2 hgrest
    refine ⟨?_, ?_⟩
    · simp only [runMoves]
      rw [e1, s1, s3]
      cases m <;> simp [countUp, countDown, moveDelta, Nat.cast_add] <;> ring
    · simp only [runMoves]
      exact e2

/-- **C5 (counterexample).** The claim says any interleaving of `n`
`move_up()` and `n` `move_down()` calls leaves the rounded position within
±1 of its start.  From the top bound (`Arrow.init 0 0 0 100 10`), the
sequence up-then-down has the `move_up` clamped to a no-op while the
`move_down` advances a full step: the rounded position ends 10 units below
its start. -/
theorem updown_counterexample :
    Arrow.init 0 0 0 100 10 = some topArrow ∧
    countUp [Move.up, Move.down] = countDown [Move.up, Move.down] ∧
    1 < ((runMoves topArrow [Move.up, Move.down]).y - topArrow.y).natAbs := by
  refine ⟨?_, rfl, ?_⟩
  · norm_num [Arrow.init, topArrow]
  · norm_num [runMoves, Arrow.applyMove, Arrow.move_up, Arrow.move_down,
      topArrow, pyRound]

/-- **C5 (amended).** If every move of the interleaved sequence passes its
bound guard (no call is clamped) and the rounded position is the rounding of
the fractional accumulator, then after equally many `move_up()` and
`move_down()` calls the final rounded position *equals* the starting rounded
position (difference 0, within the claimed ±1).  The ±1 bound does not
survive clamping: a clamped move breaks the balance by a full step. -/
theorem updown_balanced (a : Arrow) (ms : List Move)
    (hinv : a.y = pyRound a.y_with_decimal)
    (hg : noClamp a ms = true)
    (hbal : countUp ms = countDown ms) :
    (runMoves a ms).y = a.y := by
  obtain ⟨e1, e2⟩ := runMoves_noClamp ms a hinv hg
  rw [e2, e1, hbal, sub_self, zero_mul, add_zero]
  exact hinv.symm

theorem updown_balanced_witness :
    midArrow.y = pyRound midArrow.y_with_decimal ∧
    noClamp midArrow [Move.down, Move.up] = true ∧
    countUp [Move.down, Move.up] = countDown [Move.down, Move.up] ∧
    (runMoves midArrow [Move.down, Move.up]).y = midArrow.y :=
  ⟨by norm_num [midArrow, pyRound],
   by norm_num [noClamp, guardOK, Arrow.applyMove, Arrow.move_down,
      Arrow.move_up, midArrow, pyRound],
   rfl,
   updown_balanced midArrow [Move.down, Move.up]
     (by norm_num [midArrow, pyRound])
     (by norm_num [noClamp, guardOK, Arrow.applyMove, Arrow.move_down,
        Arrow.move_up, midArrow, pyRound])
     rfl⟩
